import Mathlib

/-!
# MarketPulse pipeline — verification development

Shallow embedding of the data-acquisition and transform pipeline of
`marketpulse.py` (World Bank fetcher, session cache, multi-series
aggregator, year filter, z-score normalization, pivot and correlation),
together with theorems settling the frozen specification claims.

Numeric modelling conventions:
* JSON numbers and parsed floats are idealized as rationals (`ℚ`); every
  IEEE double is a rational, and the claims under test do not hinge on
  rounding.  Pandas `NaN` (which doubles as the missing-data marker) is
  modelled as `none` in `Option ℚ` / `Option ℝ`.
* Results that involve a square root (standard deviations, Pearson
  denominators) live in `ℝ`.
* Python exceptions are modelled with `Except`; a `while True:` loop is
  modelled with explicit fuel, `none` meaning the loop has not yet
  terminated within that many iterations.
-/

/-- Result of `meta.get("page")` / `meta.get("pages", 1)` on the metadata
dict of a World Bank page response.
* `page?` is `meta.get("page")`: `none` models a missing key, a JSON
  `null`, or any value an `int` cannot be ordered against (each makes
  `meta.get("page") >= ...` raise `TypeError`).
* `pagesField` is the raw `"pages"` entry: `none` = key absent (so
  `meta.get("pages", 1)` yields the default `1`), `some none` = key
  present but `null`/non-comparable (so the `>=` raises `TypeError`),
  `some (some q)` = an integer `q`. -/
structure Meta where
  page? : Option Int
  pagesField : Option (Option Int)
  deriving DecidableEq, Repr

/-- One raw row of a World Bank page, as far as `wb_fetch_series` reads it:
`r.get("country", {}).get("value")`, `r.get("countryiso3code")`,
`r.get("indicator", {}).get("id")`, `r.get("date")` and `r.get("value")`.
The `value` field is recorded after the later `pd.to_numeric(...,
errors="coerce")` idealization: `none` is a JSON `null` or an unparsable
value (both coerce to `NaN`), `some q` a parsed number. -/
structure RawRow where
  countryField : Option String
  iso3Field : Option String
  indicatorField : Option String
  dateField : Option String
  valueField : Option ℚ
  deriving DecidableEq, Repr

/-- The observable outcome of one `requests.get(... &page=N)` call inside
`wb_fetch_series`, after `resp.json()`:
* `httpError s` — non-200 status `s` (the code raises `RuntimeError`);
* `badJson` — `resp.json()` itself raises;
* `notListPair` — payload is not a list, or has fewer than 2 elements
  (the loop `break`s);
* `overlong` — a list with more than 2 elements (the unpacking
  `meta, rows = payload` raises `ValueError`);
* `page meta rows` — a two-element payload; `meta = none` models a first
  element that is not a dict (`meta.get` raises `AttributeError`), and
  `rows` collapses the falsy second elements (`null`, `[]`) to `[]`. -/
inductive Payload where
  | httpError (status : Nat)
  | badJson
  | notListPair
  | overlong
  | page (meta : Option Meta) (rows : List RawRow)
  deriving DecidableEq, Repr

/-- Python exceptions that can escape `wb_fetch_series`. -/
inductive FetchErr where
  | runtime (status : Nat)
  | jsonError
  | valueError
  | typeError
  | attrError
  deriving DecidableEq, Repr

/-- The `while True:` page loop of `wb_fetch_series`, fuelled.  `server n`
is the outcome of requesting page `n`; `acc` is `all_rows`; the result is
`none` if the loop has not terminated within `fuel` iterations, otherwise
`some (.ok rows)` for a normal exit or `some (.error e)` for a raised
exception.  The branch structure mirrors the source line by line:
non-200 raises; a non-list / short payload breaks; an overlong payload
fails to unpack; empty (falsy) `rows` breaks *before* extending; then
`meta.get("page") >= meta.get("pages", 1)` either raises (`None`
operand), breaks, or lets the loop continue with `page + 1`. -/
def fetchLoop (server : Nat → Payload) : List RawRow → Nat → Nat →
    Option (Except FetchErr (List RawRow))
  | _, _, 0 => none
  | acc, pg, fuel + 1 =>
    match server pg with
    | .httpError s => some (.error (.runtime s))
    | .badJson => some (.error .jsonError)
    | .notListPair => some (.ok acc)
    | .overlong => some (.error .valueError)
    | .page meta rows =>
      if rows = [] then some (.ok acc)
      else
        match meta with
        | none => some (.error .attrError)
        | some m =>
          match m.page? with
          | none => some (.error .typeError)
          | some p =>
            match m.pagesField with
            | some none => some (.error .typeError)
            | none =>
              if 1 ≤ p then some (.ok (acc ++ rows))
              else fetchLoop server (acc ++ rows) (pg + 1) fuel
            | some (some q) =>
              if q ≤ p then some (.ok (acc ++ rows))
              else fetchLoop server (acc ++ rows) (pg + 1) fuel

/-- A sample row used by concrete witnesses. -/
def sampleRow : RawRow :=
  ⟨some "United States", some "USA", some "NY.GDP.MKTP.KD.ZG", some "2020", some 1⟩

/-- A second sample row. -/
def sampleRow2 : RawRow :=
  ⟨some "United States", some "USA", some "NY.GDP.MKTP.KD.ZG", some "2019", some 2⟩

/-- A concrete two-page honest server for the C1 witness. -/
def twoPageServer : Nat → Payload := fun n =>
  if n = 1 then .page (some ⟨some 1, some (some 2)⟩) [sampleRow]
  else if n = 2 then .page (some ⟨some 2, some (some 2)⟩) [sampleRow2]
  else .notListPair

/-- A server whose page-1 metadata is a dict lacking an integer `page`
field (here with `pages = 3` present), with a non-empty row list. -/
def noPageFieldServer : Nat → Payload := fun _ =>
  .page (some ⟨none, some (some 3)⟩) [sampleRow]

/-- A server answering every request with a non-list payload. -/
def notListServer : Nat → Payload := fun _ => .notListPair

/-- One parsed observation, a row of the DataFrame `wb_fetch_series`
returns: columns `country`, `countryiso3code`, `indicator`, `date`
(year as integer, rows with unparsable year already dropped), `value`
(`none` = `NaN`, i.e. missing). String-typed columns keep their possible
JSON `null`s as `Option`. -/
structure Obs where
  country : Option String
  countryiso3code : Option String
  indicator : Option String
  date : ℤ
  value : Option ℚ
  deriving DecidableEq, Repr

/-- Decimal value of a digit string, as Python `int` parses it. -/
def strToNat (s : String) : ℕ :=
  s.data.foldl (fun n c => n * 10 + (c.toNat - 48)) 0

/-- The year parse of `wb_fetch_series`:
`int(r.get("date")) if r.get("date") and str(r.get("date")).isdigit()
else None`.  A missing (`None`) date is falsy; a present string is truthy
iff non-empty; `isdigit` demands all characters be digits. -/
def parseYear (d : Option String) : Option ℤ :=
  match d with
  | none => none
  | some s => if s ≠ "" ∧ s.data.all Char.isDigit then some (strToNat s : ℤ) else none

/-- Build the `Obs` a raw row contributes, or `none` if the row is dropped
by `df.dropna(subset=["date"])` (unparsable year).  The `value` column is
carried through `pd.to_numeric(..., errors="coerce")` unchanged in the
`Option ℚ` idealization: `null`/unparsable is already `none` and parsed
numbers stay themselves — never coerced to `0` and never an error. -/
def parseRow (r : RawRow) : Option Obs :=
  (parseYear r.dateField).map fun y =>
    ⟨r.countryField, r.iso3Field, r.indicatorField, y, r.valueField⟩

/-- Ascending-year comparison used by `df.sort_values("date")`. -/
def dateLE (a b : Obs) : Prop := a.date ≤ b.date

instance : DecidableRel dateLE := fun a b => Int.decLe a.date b.date

instance : IsTotal Obs dateLE := ⟨fun a b => le_total a.date b.date⟩

instance : IsTrans Obs dateLE := ⟨fun _ _ _ => le_trans⟩

/-- The row-processing tail of `wb_fetch_series`: build records, drop rows
with unparsable year (`dropna(subset=["date"])`), sort ascending by year
(`sort_values("date")`).  (On the empty accumulation the function
returns an empty frame; `wb_process [] = []` agrees.) -/
def wb_process (rows : List RawRow) : List Obs :=
  List.insertionSort dateLE (rows.filterMap parseRow)

/-- The whole of `wb_fetch_series` for one `(country, indicator)` pair:
run the page loop, then parse, filter and sort the accumulated rows. -/
def wb_fetch_series (server : Nat → Payload) (fuel : Nat) :
    Option (Except FetchErr (List Obs)) :=
  (fetchLoop server [] 1 fuel).map (Except.map wb_process)

/-- A raw row whose year field does not parse (`"n/a"`). -/
def badYearRow : RawRow :=
  ⟨some "United States", some "USA", some "FP.CPI.TOTL.ZG", some "n/a", some 9⟩

/-- A raw row with year 2019 and an absent (null/unparsable) value. -/
def row2019NoValue : RawRow :=
  ⟨some "United States", some "USA", some "FP.CPI.TOTL.ZG", some "2019", none⟩

/-- One recorded per-pair failure of the batch: the code emits
`st.warning(f"Failed to load {ind} for {c}: {e}")`; the spec models this
as a `FetchFailure { key: SeriesKey, reason }` entry. -/
structure FetchFailure where
  countryIso3 : String
  indicatorCode : String
  err : FetchErr
  deriving DecidableEq, Repr

/-- The cartesian product `for c in countries_iso3: for ind in indicators:`
in iteration order. -/
def prodPairs (cs inds : List String) : List (String × String) :=
  cs.flatMap fun c => inds.map fun i => (c, i)

/-- The rows a single pair contributes to the merged result: the fetched
frame on success, nothing on failure. -/
def okRows (r : Except FetchErr (List Obs)) : List Obs :=
  match r with
  | .ok v => v
  | .error _ => []

/-- The failure entry a single pair contributes, if any. -/
def failOf (ci : String × String) (r : Except FetchErr (List Obs)) :
    Option FetchFailure :=
  match r with
  | .error e => some ⟨ci.1, ci.2, e⟩
  | .ok _ => none

/-- The frame a single pair appends to `frames`, if any. -/
def okFrame (r : Except FetchErr (List Obs)) : Option (List Obs) :=
  match r with
  | .ok v => some v
  | .error _ => none

/-- Loop body of `wb_fetch_multi`: `try: frames.append(wb_fetch_series(c,
ind)) except Exception as e: st.warning(...)` — a success appends the
frame, a failure appends a warning record; neither re-raises. -/
def multiStep (fetch : String → String → Except FetchErr (List Obs))
    (acc : List (List Obs) × List FetchFailure) (ci : String × String) :
    List (List Obs) × List FetchFailure :=
  match fetch ci.1 ci.2 with
  | .ok df => (acc.1 ++ [df], acc.2)
  | .error e => (acc.1, acc.2 ++ [⟨ci.1, ci.2, e⟩])

/-- `wb_fetch_multi`: iterate over the cartesian product, collect
successful frames and per-pair failures, and concatenate the frames
(`pd.concat`; an empty frame list yields the empty frame). -/
def wb_fetch_multi (fetch : String → String → Except FetchErr (List Obs))
    (cs inds : List String) : List Obs × List FetchFailure :=
  (((prodPairs cs inds).foldl (multiStep fetch) ([], [])).1.flatten,
   ((prodPairs cs inds).foldl (multiStep fetch) ([], [])).2)

/-- A fetcher for which every request fails. -/
def allFailFetch : String → String → Except FetchErr (List Obs) :=
  fun _ _ => .error (.runtime 500)

/-- Cache key of `st.cache_data` on `wb_fetch_series`: the exact argument
pair `(country_iso3, indicator)`. -/
abbrev SeriesKey := String × String

/-- One `wb_fetch_series` call through the `st.cache_data` session cache.
Streamlit memoizes by argument tuple and stores only successful return
values; if the wrapped function raises, the exception propagates and
nothing is cached.  The result triple is (outcome, cache afterwards,
number of underlying network fetches performed by this call: 0 or 1). -/
def cache_get (fetch : SeriesKey → Except FetchErr (List Obs))
    (cache : List (SeriesKey × List Obs)) (k : SeriesKey) :
    Except FetchErr (List Obs) × List (SeriesKey × List Obs) × Nat :=
  match cache.find? (fun e => decide (e.1 = k)) with
  | some e => (.ok e.2, cache, 0)
  | none =>
    match fetch k with
    | .ok v => (.ok v, cache ++ [(k, v)], 1)
    | .error err => (.error err, cache, 1)

/-- A fetcher that always fails (e.g. the API answers 503). -/
def failingFetch : SeriesKey → Except FetchErr (List Obs) :=
  fun _ => .error (.runtime 503)

/-- An observation used in cache and filter witnesses. -/
def obsUSA2020 : Obs :=
  ⟨some "United States", some "USA", some "NY.GDP.MKTP.KD.ZG", 2020, some 1⟩

/-- A fetcher that always succeeds with one observation. -/
def okFetch : SeriesKey → Except FetchErr (List Obs) :=
  fun _ => .ok [obsUSA2020]

/-- The year-range filter of the pipeline:
`mask = (data["date"] >= min_year) & (data["date"] <= max_year);
data = data.loc[mask].copy()`. -/
def filterYears (d : List Obs) (minYear maxYear : ℤ) : List Obs :=
  d.filter fun o => decide (minYear ≤ o.date ∧ o.date ≤ maxYear)

/-- An out-of-range observation for the filter witness. -/
def obsUSA1999 : Obs :=
  ⟨some "United States", some "USA", some "NY.GDP.MKTP.KD.ZG", 1999, some 5⟩

/-- The `value` series of one `groupby(["countryiso3code","indicator"])`
group, in dataset order.  Pandas groups rows by equal (non-null) key
values; `none`s (missing observations) stay in the series. -/
def groupVals (data : List Obs) (cc ind : String) : List (Option ℚ) :=
  (data.filter fun o =>
    decide (o.countryiso3code = some cc ∧ o.indicator = some ind)).map
    (fun o => o.value)

/-- The present (non-NaN) values of a series: pandas `mean`/`std` skip
NaN. -/
def presentVals (s : List (Option ℚ)) : List ℚ := s.filterMap id

/-- `s.mean()` over the present values (exact arithmetic). -/
def gMean (p : List ℚ) : ℚ := p.sum / p.length

/-- Sum of squared deviations from the mean, the numerator of the sample
variance. -/
def gVarSum (p : List ℚ) : ℚ := (p.map fun x => (x - gMean p) ^ 2).sum

/-- `s.std()` (sample standard deviation, `ddof = 1`) of a series with at
least two present values. -/
noncomputable def sampleStd (p : List ℚ) : ℝ :=
  Real.sqrt ((gVarSum p : ℝ) / ((p.length : ℝ) - 1))

/-- `s.std()` as the code observes it: `NaN` (`none`) when fewer than two
present values exist (undefined sample deviation), otherwise the real
standard deviation. -/
noncomputable def pyStd (p : List ℚ) : Option ℝ :=
  if p.length < 2 then none else some (sampleStd p)

open Classical in
/-- The divisor chosen by
`s.std() if s.std() not in (0, None) else 1`.
A `NaN` std is *not* `in (0, None)` (`NaN != 0` and `NaN is not None`),
so the expression keeps the NaN as divisor; a `0.0` std is replaced by
`1`; any other std is used as is. -/
noncomputable def pyDivisor (p : List ℚ) : Option ℝ :=
  match pyStd p with
  | none => none
  | some c => if c = 0 then some 1 else some c

/-- The z-score transform
`data.groupby(["countryiso3code","indicator"])['value'].transform(
 lambda s: (s - s.mean()) / (s.std() if s.std() not in (0, None) else 1))`
applied to one row `o` of `data`: NaN values, NaN means (empty present
set), NaN divisors and null group keys all propagate to NaN. -/
noncomputable def normalizeValue (data : List Obs) (o : Obs) : Option ℝ :=
  match o.countryiso3code, o.indicator with
  | some cc, some ind =>
    match o.value with
    | none => none
    | some v =>
      if (presentVals (groupVals data cc ind)).length = 0 then none
      else
        match pyDivisor (presentVals (groupVals data cc ind)) with
        | none => none
        | some d =>
          some (((v : ℝ) - (gMean (presentVals (groupVals data cc ind)) : ℝ)) / d)
  | _, _ => none

/-- The whole `value_norm` column added when normalization is enabled. -/
noncomputable def value_norm_col (data : List Obs) : List (Option ℝ) :=
  data.map (normalizeValue data)

/-- Three observations of one series with values `10, 20, 30`. -/
def zscoreData : List Obs :=
  [⟨some "United States", some "USA", some "NY.GDP.MKTP.KD.ZG", 2018, some 10⟩,
   ⟨some "United States", some "USA", some "NY.GDP.MKTP.KD.ZG", 2019, some 20⟩,
   ⟨some "United States", some "USA", some "NY.GDP.MKTP.KD.ZG", 2020, some 30⟩]

/-- A lone observation: its group has a single present value `7`. -/
def singletonObs : Obs :=
  ⟨some "United States", some "USA", some "SL.UEM.TOTL.ZS", 2020, some 7⟩

/-- A row of the frame handed to `df.pivot_table(index="date",
columns=["country","indicator_name"], values=ycol)`: the per-indicator
slice of the merged data, projected to the pivot's key and value
columns. -/
structure PObs where
  country : String
  indicatorName : String
  date : ℤ
  value : Option ℚ
  deriving DecidableEq, Repr

/-- Whether a row carries a present (non-NaN) value. -/
def hasPresent (o : PObs) : Bool := o.value.isSome

/-- The index (rows) of the pivot table: pandas `pivot_table` with its
default `dropna=True` drops aggregated groups whose values are all NaN
before unstacking, so a year survives iff some row of that year has a
present value. -/
def pivotYears (l : List PObs) : List ℤ :=
  ((l.filter hasPresent).map fun o => o.date).dedup

/-- The columns of the pivot table: `(country, indicator_name)` pairs;
`dropna=True` likewise drops columns whose entries are all NaN, so a pair
survives iff it has at least one present value. -/
def pivotCols (l : List PObs) : List (String × String) :=
  ((l.filter hasPresent).map fun o => (o.country, o.indicatorName)).dedup

/-- The present values a `(year, pair)` cell aggregates. -/
def cellVals (l : List PObs) (y : ℤ) (p : String × String) : List ℚ :=
  (l.filter fun o =>
    decide (o.date = y ∧ o.country = p.1 ∧ o.indicatorName = p.2)).filterMap
    fun o => o.value

/-- One pivot cell: the default `aggfunc="mean"` over the cell's present
values, `NaN` (the missing marker) when there are none. -/
def pivotCell (l : List PObs) (y : ℤ) (p : String × String) : Option ℚ :=
  if cellVals l y p = [] then none
  else some ((cellVals l y p).sum / (cellVals l y p).length)

/-- A frame with two observed `(country, indicator)` pairs in year 2000,
the second pair carrying only an absent value. -/
def pivotFrame0 : List PObs :=
  [⟨"United States", "GDP growth", 2000, some 1⟩,
   ⟨"United Kingdom", "GDP growth", 2000, none⟩]

/-- The jointly-present pairs of two index-aligned wide-table columns:
the years where *both* columns carry a present value. -/
def commonPairs (xs ys : List (Option ℚ)) : List (ℚ × ℚ) :=
  (xs.zip ys).filterMap fun ab =>
    match ab with
    | (some a, some b) => some (a, b)
    | _ => none

open Classical in
/-- The Pearson coefficient pandas' `DataFrame.corr` computes from the
jointly-present pairs of two columns: `NaN` (`none`) when fewer than two
common points exist or when either column has zero variance on the
common points (a 0/0 division in the float code), otherwise
`Σ dx·dy / sqrt(Σ dx² · Σ dy²)`. -/
noncomputable def pearsonPairs (ps : List (ℚ × ℚ)) : Option ℝ :=
  if ps.length < 2 then none
  else
    if ((ps.map fun ab => (ab.1 - gMean (ps.map Prod.fst)) ^ 2).sum = 0 ∨
        (ps.map fun ab => (ab.2 - gMean (ps.map Prod.snd)) ^ 2).sum = 0) then
      none
    else
      some
        ((((ps.map fun ab =>
              (ab.1 - gMean (ps.map Prod.fst)) *
                (ab.2 - gMean (ps.map Prod.snd))).sum : ℚ) : ℝ) /
          Real.sqrt
            ((((ps.map fun ab => (ab.1 - gMean (ps.map Prod.fst)) ^ 2).sum *
               (ps.map fun ab => (ab.2 - gMean (ps.map Prod.snd)) ^ 2).sum : ℚ) : ℝ)))

/-- One cell of `wide_all.corr()` for a pair of columns: pairwise-complete
Pearson correlation. -/
noncomputable def corrCell (xs ys : List (Option ℚ)) : Option ℝ :=
  pearsonPairs (commonPairs xs ys)

/-- The restriction of a column to the jointly-present years of two
columns — the left (`Prod.fst`) or right (`Prod.snd`) component of the
common pairs, re-wrapped as a fully present column. -/
def jointCol (f : ℚ × ℚ → ℚ) (xs ys : List (Option ℚ)) : List (Option ℚ) :=
  (commonPairs xs ys).map fun ab => some (f ab)

/-- Auxiliary for the pagination claim: if every page `n` in `pg..N`
responds with honest metadata (`page? = n`, total `pages = q n ≥ n`) and
rows `rows n`, and at page `N` either `q N = N` or `rows N = []`, then the
loop starting at `pg` with `N + 1 - pg` fuel terminates normally at some
page `m ≤ N`, having appended exactly the rows of pages `pg..m`. -/
theorem fetchLoop_term_aux (server : Nat → Payload) (q : Nat → Int)
    (rows : Nat → List RawRow) (N : Nat)
    (hpage : ∀ n, 1 ≤ n → n ≤ N →
      server n = .page (some ⟨some (n : Int), some (some (q n))⟩) (rows n))
    (hge : ∀ n, 1 ≤ n → n ≤ N → (n : Int) ≤ q n)
    (hend : q N = (N : Int) ∨ rows N = []) :
    ∀ fuel pg acc, 1 ≤ pg → pg ≤ N → N + 1 - pg ≤ fuel →
      ∃ m, pg ≤ m ∧ m ≤ N ∧
        fetchLoop server acc pg fuel =
          some (.ok (acc ++ (List.range' pg (m + 1 - pg)).flatMap rows)) := by
  intro fuel
  induction fuel with
  | zero => intro pg acc h1 h2 hf; omega
  | succ fuel ih =>
    intro pg acc h1 h2 hf
    have hsrv := hpage pg h1 h2
    by_cases hr : rows pg = []
    · -- empty rows: the loop breaks returning `acc`; the claimed range
      -- contributes nothing since `rows pg = []`.
      refine ⟨pg, le_refl pg, h2, ?_⟩
      have hrange : (List.range' pg (pg + 1 - pg)).flatMap rows = [] := by
        have : pg + 1 - pg = 1 := by omega
        simp [this, List.range', hr]
      rw [hrange]
      simp [fetchLoop, hsrv, hr]
    · by_cases hqp : q pg ≤ (pg : Int)
      · -- metadata says current page ≥ total pages: break after extending.
        refine ⟨pg, le_refl pg, h2, ?_⟩
        have hrange : (List.range' pg (pg + 1 - pg)).flatMap rows = rows pg := by
          have : pg + 1 - pg = 1 := by omega
          simp [this, List.range']
        rw [hrange]
        simp [fetchLoop, hsrv, hr, hqp]
      · -- continue with page + 1; page < N because at N the loop must stop.
        have hlt : pg < N := by
          rcases Nat.eq_or_lt_of_le h2 with heq | hlt
          · subst heq
            rcases hend with hqN | hrN
            · exact absurd (le_of_eq hqN) hqp
            · exact absurd hrN hr
          · exact hlt
        obtain ⟨m, hm1, hm2, hm3⟩ :=
          ih (pg + 1) (acc ++ rows pg) (by omega) (by omega) (by omega)
        refine ⟨m, by omega, hm2, ?_⟩
        have hstep : fetchLoop server acc pg (fuel + 1) =
            fetchLoop server (acc ++ rows pg) (pg + 1) fuel := by
          simp [fetchLoop, hsrv, hr, hqp]
        rw [hstep, hm3]
        have hlen : m + 1 - pg = (m - pg) + 1 := by omega
        have hlen2 : m + 1 - (pg + 1) = m - pg := by omega
        rw [hlen, hlen2, List.range'_succ]
        simp [List.flatMap_cons]

/-- C1.  Pagination termination: for a fetch whose pages `1..N` report
honest metadata (`page` equal to the requested page number, total `pages`
`q n ≥ n`) and where page `N` reports `page == pages` or carries an empty
row list, the page loop of `wb_fetch_series`, run with only `N` units of
fuel (i.e. at most `N` = `pages` iterations), terminates normally and
returns exactly the rows accumulated from pages `1..m` for the page `m`
at which it stopped. -/
theorem wb_pagination_terminates (server : Nat → Payload) (q : Nat → Int)
    (rows : Nat → List RawRow) (N : Nat) (hN : 1 ≤ N)
    (hpage : ∀ n, 1 ≤ n → n ≤ N →
      server n = .page (some ⟨some (n : Int), some (some (q n))⟩) (rows n))
    (hge : ∀ n, 1 ≤ n → n ≤ N → (n : Int) ≤ q n)
    (hend : q N = (N : Int) ∨ rows N = []) :
    ∃ m, 1 ≤ m ∧ m ≤ N ∧
      fetchLoop server [] 1 N =
        some (.ok ((List.range' 1 m).flatMap rows)) := by
  obtain ⟨m, hm1, hm2, hm3⟩ :=
    fetchLoop_term_aux server q rows N hpage hge hend N 1 [] le_rfl hN (by omega)
  refine ⟨m, hm1, hm2, ?_⟩
  simpa using hm3

/-- Witness for C1: on a concrete honest two-page server the loop
terminates within 2 iterations with both pages' rows accumulated. -/
theorem wb_pagination_terminates_witness :
    ∃ m, 1 ≤ m ∧ m ≤ 2 ∧
      fetchLoop twoPageServer [] 1 2 =
        some (.ok ((List.range' 1 m).flatMap fun n =>
          if n = 1 then [sampleRow] else if n = 2 then [sampleRow2] else [])) := by
  refine wb_pagination_terminates twoPageServer (fun _ => 2)
    (fun n => if n = 1 then [sampleRow] else if n = 2 then [sampleRow2] else [])
    2 (by decide) ?_ ?_ ?_
  · intro n h1 h2
    have : n = 1 ∨ n = 2 := by omega
    rcases this with h | h <;> subst h <;> rfl
  · intro n h1 h2
    have : n = 1 ∨ n = 2 := by omega
    rcases this with h | h <;> subst h <;> decide
  · left; decide

/-- Counterexample to C5 as stated.  For a page response whose metadata
lacks an integer `page` field, the claim predicts that the loop
terminates after the current page and returns the rows accumulated so far
(`[sampleRow]`).  The code instead evaluates
`meta.get("page") >= meta.get("pages", 1)` with a `None` left operand and
raises `TypeError`: the fetch fails with an error and does not return the
accumulated rows. -/
theorem fetch_missing_page_field_counterexample :
    fetchLoop noPageFieldServer [] 1 5 = some (.error .typeError) ∧
      fetchLoop noPageFieldServer [] 1 5 ≠ some (.ok [sampleRow]) := by
  have h : fetchLoop noPageFieldServer [] 1 5 = some (.error .typeError) := rfl
  exact ⟨h, by rw [h]; simp⟩

/-- C5, amended.  One-step behaviour of the page loop on each malformed
metadata shape, at any current page `pg`, accumulator `acc` and positive
fuel:
* a payload that is not a two-element list terminates the loop at once,
  returning the rows accumulated so far;
* a two-element payload whose metadata is a dict with an integer
  `page ≥ 1` but no `pages` key terminates after the current page, with
  that page's rows kept (the `.get` default `1` is compared);
* but a metadata object that is not a dict raises `AttributeError`, one
  whose `page` is missing or non-integer raises `TypeError`, and a
  present-but-null `pages` raises `TypeError` — in those cases the fetch
  fails with an error instead of returning the accumulated rows (the
  error is caught by the aggregator; the loop still never spins). -/
theorem fetch_malformed_meta_behavior (server : Nat → Payload)
    (acc : List RawRow) (pg fuel : Nat) :
    (server pg = .notListPair →
      fetchLoop server acc pg (fuel + 1) = some (.ok acc)) ∧
    (∀ p rows, server pg = .page (some ⟨some p, none⟩) rows → rows ≠ [] →
      1 ≤ p → fetchLoop server acc pg (fuel + 1) = some (.ok (acc ++ rows))) ∧
    (∀ rows, server pg = .page none rows → rows ≠ [] →
      fetchLoop server acc pg (fuel + 1) = some (.error .attrError)) ∧
    (∀ m rows, server pg = .page (some m) rows → rows ≠ [] → m.page? = none →
      fetchLoop server acc pg (fuel + 1) = some (.error .typeError)) ∧
    (∀ p rows, server pg = .page (some ⟨some p, some none⟩) rows → rows ≠ [] →
      fetchLoop server acc pg (fuel + 1) = some (.error .typeError)) := by
  refine ⟨?_, ?_, ?_, ?_, ?_⟩
  · intro h; simp [fetchLoop, h]
  · intro p rows h hr hp; simp [fetchLoop, h, hr, hp]
  · intro rows h hr; simp [fetchLoop, h, hr]
  · intro m rows h hr hp
    simp [fetchLoop, h, hr, hp]
  · intro p rows h hr; simp [fetchLoop, h, hr]

/-- Witness for the amended C5: a non-list payload on the first page makes
the loop return the (empty) accumulator at once. -/
theorem fetch_malformed_meta_behavior_witness :
    fetchLoop notListServer [] 1 1 = some (.ok []) :=
  (fetch_malformed_meta_behavior notListServer [] 1 0).1 rfl

/-- C10.  Invariants of every `SeriesResult` produced by the fetch:
the observation list is sorted ascending by year; it is a permutation of
(hence contains exactly) the parses of the raw rows whose year field is a
well-formed non-empty digit string — rows failing that parse are dropped
without failing the series (`wb_process` is total); and each contributed
observation preserves the raw row's value verbatim, so an absent or
unparsable `value` (`none` after the `to_numeric` coercion) stays absent
and a parsed number is never replaced by zero. -/
theorem series_result_invariants (rows : List RawRow) :
    List.Sorted dateLE (wb_process rows) ∧
    List.Perm (wb_process rows) (rows.filterMap parseRow) ∧
    (∀ o ∈ wb_process rows, ∃ r ∈ rows, parseRow r = some o) ∧
    (∀ r o, parseRow r = some o →
      (∃ s, r.dateField = some s ∧ s ≠ "" ∧ s.data.all Char.isDigit = true ∧
        o.date = (strToNat s : ℤ)) ∧ o.value = r.valueField) := by
  refine ⟨List.sorted_insertionSort dateLE _, List.perm_insertionSort dateLE _,
    ?_, ?_⟩
  · intro o ho
    have hmem : o ∈ rows.filterMap parseRow :=
      (List.perm_insertionSort dateLE _).mem_iff.mp ho
    exact List.mem_filterMap.mp hmem
  · intro r o h
    unfold parseRow at h
    cases hd : r.dateField with
    | none => rw [hd] at h; simp [parseYear] at h
    | some s =>
      rw [hd] at h
      simp only [parseYear] at h
      split at h
      · next hcond =>
          simp only [Option.map_some'] at h
          cases h
          exact ⟨⟨s, rfl, hcond.1, hcond.2, rfl⟩, rfl⟩
      · simp at h

/-- Witness for C10 on a concrete series: the bad-year row is dropped, the
output is the year-sorted parse of the two good rows, and the 2019
observation (parsed from a row with absent value) indeed came from a raw
row of the input. -/
theorem series_result_invariants_witness :
    List.Sorted dateLE (wb_process [sampleRow, badYearRow, row2019NoValue]) ∧
    (∃ r ∈ [sampleRow, badYearRow, row2019NoValue],
      parseRow r = some ⟨some "United States", some "USA",
        some "FP.CPI.TOTL.ZG", 2019, none⟩) := by
  have h := series_result_invariants [sampleRow, badYearRow, row2019NoValue]
  refine ⟨h.1, h.2.2.1 ⟨some "United States", some "USA",
    some "FP.CPI.TOTL.ZG", 2019, none⟩ ?_⟩
  decide

/-- Characterization of the aggregation fold: frames and failures both
accumulate pairwise, in iteration order. -/
theorem multiStep_foldl (fetch : String → String → Except FetchErr (List Obs)) :
    ∀ (l : List (String × String)) (F : List (List Obs))
      (E : List FetchFailure),
      l.foldl (multiStep fetch) (F, E) =
        (F ++ l.filterMap (fun ci => okFrame (fetch ci.1 ci.2)),
         E ++ l.filterMap (fun ci => failOf ci (fetch ci.1 ci.2))) := by
  intro l
  induction l with
  | nil => intro F E; simp
  | cons a t ih =>
    intro F E
    cases h : fetch a.1 a.2 with
    | ok v =>
      simp only [List.foldl_cons, multiStep, h, ih, List.filterMap_cons,
        okFrame, failOf]
      simp
    | error e =>
      simp only [List.foldl_cons, multiStep, h, ih, List.filterMap_cons,
        okFrame, failOf]
      simp

/-- Flattening the successful frames equals flat-mapping each pair's
contributed rows. -/
theorem flatten_okFrames (fetch : String → String → Except FetchErr (List Obs)) :
    ∀ l : List (String × String),
      (l.filterMap (fun ci => okFrame (fetch ci.1 ci.2))).flatten =
        l.flatMap fun ci => okRows (fetch ci.1 ci.2) := by
  intro l
  induction l with
  | nil => rfl
  | cons a t ih =>
    cases h : fetch a.1 a.2 with
    | ok v =>
      have hh : okFrame (fetch a.1 a.2) = some v := by rw [h]; rfl
      have hr : okRows (fetch a.1 a.2) = v := by rw [h]; rfl
      simp only [List.filterMap_cons, List.flatMap_cons, hh, hr,
        List.flatten_cons, ih]
    | error e =>
      have hh : okFrame (fetch a.1 a.2) = none := by rw [h]; rfl
      have hr : okRows (fetch a.1 a.2) = [] := by rw [h]; rfl
      simp only [List.filterMap_cons, List.flatMap_cons, hh, hr, ih,
        List.nil_append]

/-- C2.  Partial-failure tolerance of the batch: `wb_fetch_multi` is a
total function (a failing pair never raises out of the batch); its merged
rows are exactly the concatenation, in iteration order, of the rows of
every successful pair of the cartesian product; its failure list records
exactly the failing pairs; and if every pair fails the result has zero
rows and — whenever any pair was requested — a non-empty failure list. -/
theorem wb_fetch_multi_partial_failure
    (fetch : String → String → Except FetchErr (List Obs))
    (cs inds : List String) :
    (wb_fetch_multi fetch cs inds).1 =
      ((prodPairs cs inds).flatMap fun ci => okRows (fetch ci.1 ci.2)) ∧
    (wb_fetch_multi fetch cs inds).2 =
      ((prodPairs cs inds).filterMap fun ci => failOf ci (fetch ci.1 ci.2)) ∧
    ((∀ ci ∈ prodPairs cs inds, ∃ e, fetch ci.1 ci.2 = .error e) →
      (wb_fetch_multi fetch cs inds).1 = [] ∧
      (prodPairs cs inds ≠ [] → (wb_fetch_multi fetch cs inds).2 ≠ [])) := by
  have hfold := multiStep_foldl fetch (prodPairs cs inds) [] []
  have h1 : (wb_fetch_multi fetch cs inds).1 =
      ((prodPairs cs inds).flatMap fun ci => okRows (fetch ci.1 ci.2)) := by
    unfold wb_fetch_multi
    rw [hfold]
    simpa using flatten_okFrames fetch (prodPairs cs inds)
  have h2 : (wb_fetch_multi fetch cs inds).2 =
      ((prodPairs cs inds).filterMap fun ci => failOf ci (fetch ci.1 ci.2)) := by
    unfold wb_fetch_multi
    rw [hfold]
    simp
  refine ⟨h1, h2, ?_⟩
  intro hall
  constructor
  · rw [h1]
    rw [List.flatMap_eq_nil_iff]
    intro ci hci
    obtain ⟨e, he⟩ := hall ci hci
    simp [okRows, he]
  · intro hne
    rw [h2]
    cases hp : prodPairs cs inds with
    | nil => exact absurd hp hne
    | cons a t =>
      obtain ⟨e, he⟩ := hall a (by rw [hp]; exact List.mem_cons_self a t)
      simp [List.filterMap_cons, failOf, he]

/-- Witness for C2: with every pair of a 1×2 batch failing, the merged
result has zero rows and a non-empty failure list — no exception. -/
theorem wb_fetch_multi_partial_failure_witness :
    (wb_fetch_multi allFailFetch ["USA"] ["NY.GDP.MKTP.KD.ZG",
      "FP.CPI.TOTL.ZG"]).1 = [] ∧
    (wb_fetch_multi allFailFetch ["USA"] ["NY.GDP.MKTP.KD.ZG",
      "FP.CPI.TOTL.ZG"]).2 ≠ [] := by
  obtain ⟨hrows, hfail⟩ :=
    (wb_fetch_multi_partial_failure allFailFetch ["USA"]
      ["NY.GDP.MKTP.KD.ZG", "FP.CPI.TOTL.ZG"]).2.2
      (fun ci _ => ⟨.runtime 500, rfl⟩)
  exact ⟨hrows, hfail (by decide)⟩

/-- Counterexample to C8 as stated.  The claim says two sequential `get`
calls for one key issue at most one underlying network fetch, the second
returning the stored outcome, success *or error*.  But `st.cache_data`
does not store exceptions: with a failing fetcher, the first call fetches
(and caches nothing), and the second call fetches again — two underlying
network fetches, not at most one. -/
theorem cache_error_refetch_counterexample :
    (cache_get failingFetch [] ("USA", "NY.GDP.MKTP.KD.ZG")).2.2 +
      (cache_get failingFetch
        (cache_get failingFetch [] ("USA", "NY.GDP.MKTP.KD.ZG")).2.1
        ("USA", "NY.GDP.MKTP.KD.ZG")).2.2 = 2 ∧
    ¬((cache_get failingFetch [] ("USA", "NY.GDP.MKTP.KD.ZG")).2.2 +
      (cache_get failingFetch
        (cache_get failingFetch [] ("USA", "NY.GDP.MKTP.KD.ZG")).2.1
        ("USA", "NY.GDP.MKTP.KD.ZG")).2.2 ≤ 1) := by
  constructor
  · rfl
  · decide

/-- C8, amended.  Two sequential cached `get` calls for the same key in
one fresh session return identical outcomes (the fetcher is
deterministic within a session).  If the first call succeeds, its result
is stored and the second call returns it with no further network fetch —
at most one fetch in total, as claimed.  If the first call fails, the
error is *not* stored: the second call performs a second network fetch
(returning the same error). -/
theorem cache_get_sequential (fetch : SeriesKey → Except FetchErr (List Obs))
    (k : SeriesKey) :
    (cache_get fetch [] k).2.2 = 1 ∧
    (∀ v, (cache_get fetch [] k).1 = .ok v →
      (cache_get fetch ((cache_get fetch [] k).2.1) k).1 = .ok v ∧
      (cache_get fetch ((cache_get fetch [] k).2.1) k).2.2 = 0) ∧
    (∀ e, (cache_get fetch [] k).1 = .error e →
      (cache_get fetch ((cache_get fetch [] k).2.1) k).1 = .error e ∧
      (cache_get fetch ((cache_get fetch [] k).2.1) k).2.2 = 1) := by
  cases h : fetch k with
  | ok v =>
    have h1 : cache_get fetch [] k = (.ok v, [(k, v)], 1) := by
      simp [cache_get, h]
    have h2 : cache_get fetch [(k, v)] k = (.ok v, [(k, v)], 0) := by
      simp [cache_get, List.find?]
    refine ⟨by rw [h1], ?_, ?_⟩
    · intro v' hv'
      rw [h1] at hv'
      cases hv'
      rw [h1, h2]
      exact ⟨rfl, rfl⟩
    · intro e he
      rw [h1] at he
      exact absurd he (by simp)
  | error e =>
    have h1 : cache_get fetch [] k = (.error e, [], 1) := by
      simp [cache_get, h]
    refine ⟨by rw [h1], ?_, ?_⟩
    · intro v hv
      rw [h1] at hv
      exact absurd hv (by simp)
    · intro e' he'
      rw [h1] at he'
      cases he'
      rw [h1, h1]
      exact ⟨rfl, rfl⟩

/-- Witness for the amended C8: with a succeeding fetcher, the first call
fetches once, and the second call returns the identical stored result
with zero further fetches. -/
theorem cache_get_sequential_witness :
    (cache_get okFetch [] ("USA", "NY.GDP.MKTP.KD.ZG")).2.2 = 1 ∧
    (cache_get okFetch
      ((cache_get okFetch [] ("USA", "NY.GDP.MKTP.KD.ZG")).2.1)
      ("USA", "NY.GDP.MKTP.KD.ZG")).1 = .ok [obsUSA2020] ∧
    (cache_get okFetch
      ((cache_get okFetch [] ("USA", "NY.GDP.MKTP.KD.ZG")).2.1)
      ("USA", "NY.GDP.MKTP.KD.ZG")).2.2 = 0 := by
  have h := cache_get_sequential okFetch ("USA", "NY.GDP.MKTP.KD.ZG")
  obtain ⟨hres, hcount⟩ := h.2.1 [obsUSA2020] rfl
  exact ⟨h.1, hres, hcount⟩

/-- C9.  The filter stage keeps exactly the observations whose year lies
in `[minYear, maxYear]`, both ends inclusive: the result is a sublist of
the input (so every retained observation is one of the input records,
all its fields unchanged), and an observation belongs to the result iff
it belongs to the input and its year is within bounds. -/
theorem year_filter_exact (d : List Obs) (minYear maxYear : ℤ) :
    List.Sublist (filterYears d minYear maxYear) d ∧
    (∀ o : Obs, o ∈ filterYears d minYear maxYear ↔
      o ∈ d ∧ minYear ≤ o.date ∧ o.date ≤ maxYear) := by
  constructor
  · exact List.filter_sublist d
  · intro o
    constructor
    · intro h
      have := List.mem_filter.mp h
      exact ⟨this.1, of_decide_eq_true this.2⟩
    · intro ⟨h1, h2⟩
      exact List.mem_filter.mpr ⟨h1, decide_eq_true h2⟩

/-- Witness for C9: with range `[2000, 2024]`, the 2020 observation is
kept and the 1999 one is not. -/
theorem year_filter_exact_witness :
    obsUSA2020 ∈ filterYears [obsUSA1999, obsUSA2020] 2000 2024 ∧
    obsUSA1999 ∉ filterYears [obsUSA1999, obsUSA2020] 2000 2024 := by
  have h := year_filter_exact [obsUSA1999, obsUSA2020] 2000 2024
  constructor
  · exact (h.2 obsUSA2020).mpr ⟨by simp, by decide, by decide⟩
  · intro hmem
    have := ((h.2 obsUSA1999).mp hmem).2
    revert this
    decide

/-- C3.  Normalization with nonzero spread: for any observation whose
`(countryiso3code, indicator)` group has at least two present values and
a nonzero sum of squared deviations (equivalently, nonzero standard
deviation), a present value `v` is replaced by
`(v - groupMean) / groupStdDev`, where the mean and the (sample) standard
deviation are computed over the group's *present* values only; an absent
value stays absent. -/
theorem value_norm_zscore (data : List Obs) (o : Obs) (cc ind : String)
    (hcc : o.countryiso3code = some cc) (hind : o.indicator = some ind)
    (hlen : 2 ≤ (presentVals (groupVals data cc ind)).length)
    (hvar : gVarSum (presentVals (groupVals data cc ind)) ≠ 0) :
    (∀ v : ℚ, o.value = some v →
      normalizeValue data o =
        some (((v : ℝ) - (gMean (presentVals (groupVals data cc ind)) : ℝ)) /
          sampleStd (presentVals (groupVals data cc ind)))) ∧
    (o.value = none → normalizeValue data o = none) := by
  have hnn : (0 : ℚ) ≤ gVarSum (presentVals (groupVals data cc ind)) := by
    unfold gVarSum
    apply List.sum_nonneg
    intro x hx
    obtain ⟨y, _, hy⟩ := List.mem_map.mp hx
    rw [← hy]
    positivity
  have hvarpos : (0 : ℚ) < gVarSum (presentVals (groupVals data cc ind)) :=
    lt_of_le_of_ne hnn (Ne.symm hvar)
  have hstdpos : 0 < sampleStd (presentVals (groupVals data cc ind)) := by
    unfold sampleStd
    rw [Real.sqrt_pos]
    apply div_pos
    · exact_mod_cast hvarpos
    · have : (2 : ℝ) ≤ ((presentVals (groupVals data cc ind)).length : ℝ) := by
        exact_mod_cast hlen
      linarith
  have hdiv : pyDivisor (presentVals (groupVals data cc ind)) =
      some (sampleStd (presentVals (groupVals data cc ind))) := by
    unfold pyDivisor pyStd
    rw [if_neg (by omega)]
    simp only [if_neg (ne_of_gt hstdpos)]
  constructor
  · intro v hv
    simp only [normalizeValue, hcc, hind, hv, hdiv]
    rw [if_neg (by omega)]
  · intro hv
    simp only [normalizeValue, hcc, hind, hv]

/-- Witness for C3: the group `[10, 20, 30]` has three present values and
nonzero spread, and its first observation normalizes to
`(10 - mean) / std`. -/
theorem value_norm_zscore_witness :
    2 ≤ (presentVals (groupVals zscoreData "USA" "NY.GDP.MKTP.KD.ZG")).length ∧
    gVarSum (presentVals (groupVals zscoreData "USA" "NY.GDP.MKTP.KD.ZG")) ≠ 0 ∧
    normalizeValue zscoreData
      ⟨some "United States", some "USA", some "NY.GDP.MKTP.KD.ZG", 2018,
        some 10⟩ =
      some ((((10 : ℚ) : ℝ) -
          (gMean (presentVals (groupVals zscoreData "USA" "NY.GDP.MKTP.KD.ZG")) : ℝ)) /
        sampleStd (presentVals (groupVals zscoreData "USA" "NY.GDP.MKTP.KD.ZG"))) := by
  have hg : presentVals (groupVals zscoreData "USA" "NY.GDP.MKTP.KD.ZG") =
      [10, 20, 30] := by decide
  have hvar : gVarSum (presentVals (groupVals zscoreData "USA"
      "NY.GDP.MKTP.KD.ZG")) ≠ 0 := by
    rw [hg]
    norm_num [gVarSum, gMean, List.sum_cons, List.sum_nil]
  refine ⟨by rw [hg]; decide, hvar, ?_⟩
  exact (value_norm_zscore zscoreData
    ⟨some "United States", some "USA", some "NY.GDP.MKTP.KD.ZG", 2018,
      some 10⟩
    "USA" "NY.GDP.MKTP.KD.ZG" rfl rfl (by rw [hg]; decide) hvar).1 10 rfl

/-- C4 (code bug).  The claim — and the guard's own `None` alternative in
`s.std() not in (0, None)` — intend a group with fewer than 2 present
values to use divisor 1, normalizing `7` to `7 - 7 = 0`.  But pandas
returns `NaN` (not `None`) for the undefined std, `NaN ∉ (0, None)`
holds, so the code divides by `NaN`: evaluating the transform on the
singleton group yields an absent value, not `0 = value - mean`. -/
theorem value_norm_singleton_nan :
    normalizeValue [singletonObs] singletonObs = none ∧
    normalizeValue [singletonObs] singletonObs ≠
      some (((7 : ℚ) : ℝ) - ((7 : ℚ) : ℝ)) := by
  have h : normalizeValue [singletonObs] singletonObs = none := rfl
  exact ⟨h, by rw [h]; simp⟩

/-- Counterexample to C7 as stated.  The claim predicts one column per
distinct `(country, indicator)` pair *observed*, so `pivotFrame0` should
give two columns, the valueless one filled with the missing marker.  But
`pivot_table(dropna=True)` (the code's default) drops columns whose
entries are all NaN: the `("United Kingdom", "GDP growth")` pair gets no
column, and the table has exactly one column. -/
theorem pivot_drops_valueless_pair :
    pivotCols pivotFrame0 = [("United States", "GDP growth")] ∧
    ("United Kingdom", "GDP growth") ∉ pivotCols pivotFrame0 := by
  constructor
  · rfl
  · decide

/-- C7, amended.  The pivoted wide table has exactly one row per distinct
year that carries at least one *present* value, and exactly one column
per distinct `(country, indicator)` pair with at least one present value
(pairs or years observed only with absent values are dropped by
`dropna=True`); every `(year, pair)` cell with no matching
present-valued observation holds the missing-data marker — never zero.
(Multiple matching observations are aggregated by the default mean.) -/
theorem pivot_shape (l : List PObs) :
    (pivotYears l).Nodup ∧
    (∀ y : ℤ, y ∈ pivotYears l ↔ ∃ o ∈ l, o.date = y ∧ o.value.isSome) ∧
    (pivotCols l).Nodup ∧
    (∀ p : String × String, p ∈ pivotCols l ↔
      ∃ o ∈ l, (o.country, o.indicatorName) = p ∧ o.value.isSome) ∧
    (∀ (y : ℤ) (p : String × String),
      (¬∃ o ∈ l, o.date = y ∧ o.country = p.1 ∧ o.indicatorName = p.2 ∧
        o.value.isSome) → pivotCell l y p = none) := by
  refine ⟨List.nodup_dedup _, ?_, List.nodup_dedup _, ?_, ?_⟩
  · intro y
    simp only [pivotYears, List.mem_dedup, List.mem_map, List.mem_filter,
      hasPresent]
    constructor
    · rintro ⟨o, ⟨h1, h2⟩, h3⟩
      exact ⟨o, h1, h3, h2⟩
    · rintro ⟨o, h1, h2, h3⟩
      exact ⟨o, ⟨h1, h3⟩, h2⟩
  · intro p
    simp only [pivotCols, List.mem_dedup, List.mem_map, List.mem_filter,
      hasPresent]
    constructor
    · rintro ⟨o, ⟨h1, h2⟩, h3⟩
      exact ⟨o, h1, h3, h2⟩
    · rintro ⟨o, h1, h2, h3⟩
      exact ⟨o, ⟨h1, h3⟩, h2⟩
  · intro y p hno
    have hempty : cellVals l y p = [] := by
      rw [List.eq_nil_iff_forall_not_mem]
      intro q hq
      obtain ⟨o, ho, hv⟩ := List.mem_filterMap.mp hq
      have hf := List.mem_filter.mp ho
      have hc := of_decide_eq_true hf.2
      exact hno ⟨o, hf.1, hc.1, hc.2.1, hc.2.2, by rw [hv]; rfl⟩
    simp [pivotCell, hempty]

/-- Witness for the amended C7: in `pivotFrame0` the cell of the kept
column at a year with no matching present observation — here the dropped
pair's cell — is the missing marker, and the table's unique row and
column are as predicted. -/
theorem pivot_shape_witness :
    pivotYears pivotFrame0 = [2000] ∧
    pivotCell pivotFrame0 2000 ("United Kingdom", "GDP growth") = none := by
  have h := pivot_shape pivotFrame0
  refine ⟨by rfl, ?_⟩
  apply h.2.2.2.2 2000 ("United Kingdom", "GDP growth")
  decide

/-- Restricting two columns to their jointly-present years leaves exactly
those pairs. -/
theorem commonPairs_joint (ps : List (ℚ × ℚ)) :
    commonPairs (ps.map fun ab => some ab.1) (ps.map fun ab => some ab.2) =
      ps := by
  induction ps with
  | nil => rfl
  | cons a t ih =>
    have hcons :
        commonPairs (some a.1 :: t.map fun ab => some ab.1)
          (some a.2 :: t.map fun ab => some ab.2) =
        (a.1, a.2) ::
          commonPairs (t.map fun ab => some ab.1)
            (t.map fun ab => some ab.2) := rfl
    simp only [List.map_cons, hcons, ih]

/-- C6.  Pairwise-complete correlation: each `wide_all.corr()` cell is a
function of exactly the jointly-present years of its two columns —
restricting both columns to those years leaves the cell unchanged (so
years where only one column is present are ignored, unlike
full-row-complete deletion) — and a pair of columns with fewer than two
jointly-present years yields an undefined (`NaN`) cell, which is neither
a real `0.0` nor a `1.0`. -/
theorem corr_pairwise_complete (xs ys : List (Option ℚ)) :
    corrCell xs ys =
      corrCell (jointCol Prod.fst xs ys) (jointCol Prod.snd xs ys) ∧
    ((commonPairs xs ys).length < 2 →
      corrCell xs ys = none ∧ corrCell xs ys ≠ some 0 ∧
        corrCell xs ys ≠ some 1) := by
  constructor
  · unfold corrCell jointCol
    rw [commonPairs_joint]
  · intro h
    have hnone : corrCell xs ys = none := by
      unfold corrCell pearsonPairs
      rw [if_pos h]
    exact ⟨hnone, by rw [hnone]; simp, by rw [hnone]; simp⟩

/-- Witness for C6: two concrete columns with a single jointly-present
year (the partner value is missing in each other year) get an undefined
correlation cell. -/
theorem corr_pairwise_complete_witness :
    (commonPairs [some 1, none, some 5] [some 2, some 3, none]).length < 2 ∧
    corrCell [some 1, none, some 5] [some 2, some 3, none] = none := by
  have h :=
    (corr_pairwise_complete [some 1, none, some 5] [some 2, some 3, none]).2
      (by decide)
  exact ⟨by decide, h.1⟩
